import Mathlib

/-!
Verification of the financial core and market-intelligence layer of the
`chile_realestate` package (`financials.py`, `market_intelligence.py`).

Monetary quantities are embedded as exact rationals (`ℚ`).  Python's
`round(x, n)` (round-half-to-even at `n` decimal digits) is embedded as
`pyRound`.  Library numerics that are not part of the repository
(`npf.pmt`, `npf.irr`, `random`, `statistics.stdev`) are embedded by their
mathematical definitions, or abstracted as explicit parameters where they
perform iterative floating-point root finding or pseudo-random generation.
-/

namespace ChileRealEstate

/-- Round-half-to-even to an integer, as Python's builtin `round` does on
the scaled value: values with fractional part below one half go down, above
one half go up, and exact halves go to the even neighbour. -/
def rhe (x : ℚ) : ℤ :=
  if x - ⌊x⌋ < 1/2 then ⌊x⌋
  else if 1/2 < x - ⌊x⌋ then ⌊x⌋ + 1
  else if ⌊x⌋ % 2 = 0 then ⌊x⌋ else ⌊x⌋ + 1

/-- Python's `round(x, n)`: round-half-to-even at `n` decimal digits
(`n` may be negative, e.g. `round(x, -3)` rounds to thousands). -/
def pyRound (x : ℚ) (n : ℤ) : ℚ :=
  (rhe (x * 10 ^ n) : ℚ) / 10 ^ n

theorem rhe_ge_floor (x : ℚ) : ⌊x⌋ ≤ rhe x := by
  unfold rhe
  split_ifs <;> omega

theorem rhe_le_floor_add_one (x : ℚ) : rhe x ≤ ⌊x⌋ + 1 := by
  unfold rhe
  split_ifs <;> omega

theorem rhe_mono {x y : ℚ} (h : x ≤ y) : rhe x ≤ rhe y := by
  have hf : ⌊x⌋ ≤ ⌊y⌋ := Int.floor_mono h
  rcases lt_or_eq_of_le hf with hlt | heq
  · calc rhe x ≤ ⌊x⌋ + 1 := rhe_le_floor_add_one x
    _ ≤ ⌊y⌋ := by omega
    _ ≤ rhe y := rhe_ge_floor y
  · unfold rhe
    rw [← heq]
    have hr : x - (⌊x⌋ : ℚ) ≤ y - (⌊x⌋ : ℚ) := by linarith
    split_ifs with h1 h2 h3 h4 h5 h6 h7 h8 <;> first
      | omega
      | (exfalso; linarith)

theorem rhe_intCast (k : ℤ) : rhe (k : ℚ) = k := by
  unfold rhe
  have h0 : ⌊(k : ℚ)⌋ = k := Int.floor_intCast k
  rw [h0, sub_self]
  norm_num

theorem rhe_zero : rhe 0 = 0 := by
  simpa using rhe_intCast 0

theorem pyRound_mono {x y : ℚ} (n : ℤ) (h : x ≤ y) : pyRound x n ≤ pyRound y n := by
  unfold pyRound
  have hpow : (0 : ℚ) < 10 ^ n := zpow_pos (by norm_num) n
  have h1 : x * 10 ^ n ≤ y * 10 ^ n := by
    exact mul_le_mul_of_nonneg_right h (le_of_lt hpow)
  have h2 : (rhe (x * 10 ^ n) : ℚ) ≤ (rhe (y * 10 ^ n) : ℚ) := by
    exact_mod_cast rhe_mono h1
  exact div_le_div_of_nonneg_right h2 hpow.le

theorem pyRound_zero (n : ℤ) : pyRound 0 n = 0 := by
  unfold pyRound
  rw [zero_mul, rhe_zero]
  norm_num

/-! ### Exchange-rate snapshot and unit conversions

`CurrencyRates` in `financials.py` is a plain `@dataclass` with four fields
and no `__post_init__`: construction stores the given rates unchecked.
The timestamp field `fecha` is embedded as an integer epoch value. -/

structure CurrencyRates where
  uf_clp : ℚ
  eur_clp : ℚ
  usd_clp : ℚ
  fecha : ℤ
deriving DecidableEq

/-- Property `uf_eur` of `CurrencyRates`. -/
def CurrencyRates.uf_eur (r : CurrencyRates) : ℚ := r.uf_clp / r.eur_clp

/-- Property `clp_eur` of `CurrencyRates`. -/
def CurrencyRates.clp_eur (r : CurrencyRates) : ℚ := 1 / r.eur_clp

/-- Embeds `RealEstateCalculator.uf_to_clp` -/
def uf_to_clp (rates : CurrencyRates) (amount_uf : ℚ) : ℚ :=
  amount_uf * rates.uf_clp

/-- Embeds `RealEstateCalculator.clp_to_uf` -/
def clp_to_uf (rates : CurrencyRates) (amount_clp : ℚ) : ℚ :=
  amount_clp / rates.uf_clp

/-- Embeds `RealEstateCalculator.uf_to_eur` -/
def uf_to_eur (rates : CurrencyRates) (amount_uf : ℚ) : ℚ :=
  uf_to_clp rates amount_uf / rates.eur_clp

/-- Embeds `RealEstateCalculator.clp_to_eur` -/
def clp_to_eur (rates : CurrencyRates) (amount_clp : ℚ) : ℚ :=
  amount_clp / rates.eur_clp

/-- Embeds `RealEstateCalculator.eur_to_clp` -/
def eur_to_clp (rates : CurrencyRates) (amount_eur : ℚ) : ℚ :=
  amount_eur * rates.eur_clp

/-- Embeds `RealEstateCalculator.eur_to_uf` -/
def eur_to_uf (rates : CurrencyRates) (amount_eur : ℚ) : ℚ :=
  clp_to_uf rates (eur_to_clp rates amount_eur)

/-! ### Fixed-payment (French) annuity

`calculate_mortgage_payment` and `generate_amortization_schedule` compute the
monthly installment as `-npf.pmt(monthly_rate, n_payments, principal)`.
For a zero rate `npf.pmt` degenerates to `-pv/nper`; otherwise it is the
standard annuity formula.  `annuityPayment` is that negated value. -/

/-- The monthly installment `-npf.pmt(rate, nper, pv)`: the fixed-payment
annuity formula `pv * rate * (1+rate)^nper / ((1+rate)^nper - 1)`, with the
zero-rate degenerate case `pv / nper`. -/
def annuityPayment (rate : ℚ) (nper : ℕ) (pv : ℚ) : ℚ :=
  if rate = 0 then pv / nper
  else pv * rate * (1 + rate) ^ nper / ((1 + rate) ^ nper - 1)

/-- Present value of `nper` monthly unit payments at monthly rate `rate`:
the annuity factor `Σ_{k=1..nper} (1+rate)^(-k)`. -/
def annuityS (rate : ℚ) (nper : ℕ) : ℚ :=
  ∑ k ∈ Finset.range nper, (1 / (1 + rate)) ^ (k + 1)

theorem annuityS_zero_rate (nper : ℕ) : annuityS 0 nper = nper := by
  unfold annuityS
  simp

theorem annuityS_pos {rate : ℚ} (hr : 0 ≤ rate) {nper : ℕ} (hn : 1 ≤ nper) :
    0 < annuityS rate nper := by
  unfold annuityS
  apply Finset.sum_pos
  · intro k _
    have h1 : (0 : ℚ) < 1 + rate := by linarith
    positivity
  · exact ⟨0, Finset.mem_range.mpr (by omega)⟩

theorem annuityS_succ_mul {rate : ℚ} (hr : 0 ≤ rate) (nper : ℕ) :
    annuityS rate (nper + 1) * (1 + rate) = 1 + annuityS rate nper := by
  have h1 : (0 : ℚ) < 1 + rate := by linarith
  have hq : (1 / (1 + rate)) * (1 + rate) = 1 := by
    field_simp
  unfold annuityS
  rw [Finset.sum_range_succ', add_mul]
  have hzero : ((1 / (1 + rate)) ^ (0 + 1)) * (1 + rate) = 1 := by
    simpa using hq
  rw [hzero, Finset.sum_mul]
  have hterm : ∀ k, (1 / (1 + rate)) ^ (k + 1 + 1) * (1 + rate)
      = (1 / (1 + rate)) ^ (k + 1) := by
    intro k
    rw [pow_succ, mul_assoc, hq, mul_one]
  rw [Finset.sum_congr rfl (fun k _ => hterm k)]
  ring

theorem annuityS_mul_rate {rate : ℚ} (hr : 0 ≤ rate) (nper : ℕ) :
    annuityS rate nper * rate * (1 + rate) ^ nper = (1 + rate) ^ nper - 1 := by
  induction nper with
  | zero => simp [annuityS]
  | succ n ih =>
    have h1 : annuityS rate (n + 1) * rate * (1 + rate) ^ (n + 1)
        = (annuityS rate (n + 1) * (1 + rate)) * rate * (1 + rate) ^ n := by
      ring
    rw [h1, annuityS_succ_mul hr n]
    have h2 : (1 + annuityS rate n) * rate * (1 + rate) ^ n
        = rate * (1 + rate) ^ n + annuityS rate n * rate * (1 + rate) ^ n := by
      ring
    rw [h2, ih]
    ring

theorem annuityPayment_mul_S {rate : ℚ} (hr : 0 ≤ rate) {nper : ℕ}
    (hn : 1 ≤ nper) (pv : ℚ) :
    annuityPayment rate nper pv * annuityS rate nper = pv := by
  unfold annuityPayment
  by_cases h0 : rate = 0
  · subst h0
    rw [if_pos rfl, annuityS_zero_rate]
    have : (nper : ℚ) ≠ 0 := by
      exact_mod_cast Nat.one_le_iff_ne_zero.mp hn
    field_simp
  · rw [if_neg h0]
    have hrpos : 0 < rate := lt_of_le_of_ne hr (Ne.symm h0)
    have h1 : (0 : ℚ) < 1 + rate := by linarith
    have hgt : 1 < (1 + rate) ^ nper := by
      apply one_lt_pow₀ (by linarith)
      omega
    have hne : (1 + rate) ^ nper - 1 ≠ 0 := by linarith
    have hS := annuityS_mul_rate hr nper
    field_simp
    calc pv * rate * (1 + rate) ^ nper * annuityS rate nper
        = pv * (annuityS rate nper * rate * (1 + rate) ^ nper) := by ring
      _ = pv * ((1 + rate) ^ nper - 1) := by rw [hS]

theorem annuityPayment_eq_div {rate : ℚ} (hr : 0 ≤ rate) {nper : ℕ}
    (hn : 1 ≤ nper) (pv : ℚ) :
    annuityPayment rate nper pv = pv / annuityS rate nper := by
  have hS := annuityS_pos hr hn
  have h := annuityPayment_mul_S hr hn pv
  field_simp
  linarith [h]

theorem annuityPayment_pos {rate : ℚ} (hr : 0 ≤ rate) {nper : ℕ}
    (hn : 1 ≤ nper) {pv : ℚ} (hpv : 0 < pv) :
    0 < annuityPayment rate nper pv := by
  rw [annuityPayment_eq_div hr hn]
  exact div_pos hpv (annuityS_pos hr hn)

theorem annuityS_strict_anti_rate {r1 r2 : ℚ} (h1 : 0 ≤ r1) (h12 : r1 < r2)
    {nper : ℕ} (hn : 1 ≤ nper) :
    annuityS r2 nper < annuityS r1 nper := by
  have hp1 : (0 : ℚ) < 1 + r1 := by linarith
  have hp2 : (0 : ℚ) < 1 + r2 := by linarith
  have hq : 1 / (1 + r2) < 1 / (1 + r1) := by
    apply one_div_lt_one_div_of_lt hp1
    linarith
  have hq2 : (0 : ℚ) ≤ 1 / (1 + r2) := by positivity
  unfold annuityS
  apply Finset.sum_lt_sum_of_nonempty
  · exact ⟨0, Finset.mem_range.mpr (by omega)⟩
  · intro k _
    exact pow_lt_pow_left₀ hq hq2 (by omega)

theorem annuityS_strict_mono_nper {rate : ℚ} (hr : 0 ≤ rate) {n1 n2 : ℕ}
    (h : n1 < n2) : annuityS rate n1 < annuityS rate n2 := by
  have hp : (0 : ℚ) < 1 + rate := by linarith
  unfold annuityS
  apply Finset.sum_lt_sum_of_subset (Finset.range_subset.mpr h.le)
    (i := n1) (Finset.mem_range.mpr h) (Finset.not_mem_range_self)
  · positivity
  · intro k _ _
    positivity

theorem annuityS_mono_nper {rate : ℚ} (hr : 0 ≤ rate) {n1 n2 : ℕ}
    (h : n1 ≤ n2) : annuityS rate n1 ≤ annuityS rate n2 := by
  rcases lt_or_eq_of_le h with hlt | heq
  · exact (annuityS_strict_mono_nper hr hlt).le
  · rw [heq]

theorem annuityPayment_strict_mono_rate {r1 r2 : ℚ} (h1 : 0 ≤ r1)
    (h12 : r1 < r2) {nper : ℕ} (hn : 1 ≤ nper) {pv : ℚ} (hpv : 0 < pv) :
    annuityPayment r1 nper pv < annuityPayment r2 nper pv := by
  rw [annuityPayment_eq_div h1 hn, annuityPayment_eq_div (by linarith) hn]
  have hS2 : 0 < annuityS r2 nper := annuityS_pos (by linarith) hn
  exact div_lt_div_of_pos_left hpv hS2 (annuityS_strict_anti_rate h1 h12 hn)

theorem annuityPayment_strict_anti_nper {rate : ℚ} (hr : 0 ≤ rate)
    {n1 n2 : ℕ} (hn1 : 1 ≤ n1) (h : n1 < n2) {pv : ℚ} (hpv : 0 < pv) :
    annuityPayment rate n2 pv < annuityPayment rate n1 pv := by
  rw [annuityPayment_eq_div hr hn1, annuityPayment_eq_div hr (by omega)]
  have hS1 : 0 < annuityS rate n1 := annuityS_pos hr hn1
  exact div_lt_div_of_pos_left hpv hS1 (annuityS_strict_mono_nper hr h)

/-! ### Market constants (`FIXED_COSTS_UF`, `MARKET_RATES`) -/

namespace FIXED_COSTS_UF

def tasacion : ℚ := 3.0
def estudio_titulos : ℚ := 5.0
def borrador_escritura : ℚ := 3.0
def notaria : ℚ := 4.0

end FIXED_COSTS_UF

namespace MARKET_RATES

def impuesto_mutuo : ℚ := 0.008
def cbrs_rate : ℚ := 0.005
def cbrs_tope_uf : ℚ := 50.0
def corretaje_rate : ℚ := 0.02
def iva : ℚ := 0.19
def contribuciones_annual : ℚ := 0.0075
def desgravamen_monthly : ℚ := 0.00025
def incendio_sismo_monthly : ℚ := 0.0002

end MARKET_RATES

/-! ### Mortgage payment (`calculate_mortgage_payment`) -/

structure MortgagePayment where
  cuota_base_uf : ℚ
  seguro_desgravamen_uf : ℚ
  seguro_incendio_uf : ℚ
deriving DecidableEq

/-- Property `dividendo_total_uf` of `MortgagePayment`. -/
def MortgagePayment.dividendo_total_uf (m : MortgagePayment) : ℚ :=
  m.cuota_base_uf + m.seguro_desgravamen_uf + m.seguro_incendio_uf

/-- Embeds `RealEstateCalculator.calculate_mortgage_payment`: base installment by the
annuity formula (`-npf.pmt`), life-insurance rider on the origination
principal, fire-insurance rider on the property value; each rounded to 4
decimals as in the source. -/
def calculate_mortgage_payment (principal_uf rate_annual : ℚ) (years : ℕ)
    (property_value_uf : ℚ) : MortgagePayment :=
  let monthly_rate := rate_annual / 100 / 12
  let n_payments := years * 12
  let cuota_base := annuityPayment monthly_rate n_payments principal_uf
  let seguro_desgravamen := principal_uf * MARKET_RATES.desgravamen_monthly
  let seguro_incendio := property_value_uf * MARKET_RATES.incendio_sismo_monthly
  { cuota_base_uf := pyRound cuota_base 4
    seguro_desgravamen_uf := pyRound seguro_desgravamen 4
    seguro_incendio_uf := pyRound seguro_incendio 4 }

/-! ### Amortization schedule (`generate_amortization_schedule`) -/

structure AmortEntry where
  periodo : ℕ
  cuota_uf : ℚ
  interes_uf : ℚ
  capital_uf : ℚ
  saldo_uf : ℚ
deriving DecidableEq

/-- Loop body of `generate_amortization_schedule`: one row per month, with
`interes = saldo * monthly_rate`, `capital = cuota - interes`,
`saldo -= capital`, and the recorded balance floored at zero and rounded to 4
decimals. -/
def amortAux (monthly_rate cuota : ℚ) : ℚ → ℕ → ℕ → List AmortEntry
  | _, _, 0 => []
  | saldo, periodo, m + 1 =>
    let interes := saldo * monthly_rate
    let capital := cuota - interes
    let saldo2 := saldo - capital
    { periodo := periodo
      cuota_uf := pyRound cuota 4
      interes_uf := pyRound interes 4
      capital_uf := pyRound capital 4
      saldo_uf := pyRound (max 0 saldo2) 4 } :: amortAux monthly_rate cuota saldo2 (periodo + 1) m

/-- Embeds `RealEstateCalculator.generate_amortization_schedule`. -/
def generate_amortization_schedule (principal_uf rate_annual : ℚ)
    (years : ℕ) : List AmortEntry :=
  let monthly_rate := rate_annual / 100 / 12
  let n_payments := years * 12
  let cuota := annuityPayment monthly_rate n_payments principal_uf
  amortAux monthly_rate cuota principal_uf 1 n_payments

/-- One step of the balance recurrence: `saldo - (cuota - saldo*rate)`. -/
def amortStep (monthly_rate cuota saldo : ℚ) : ℚ :=
  saldo * (1 + monthly_rate) - cuota

theorem amortAux_length (monthly_rate cuota : ℚ) (saldo : ℚ) (periodo m : ℕ) :
    (amortAux monthly_rate cuota saldo periodo m).length = m := by
  induction m generalizing saldo periodo with
  | zero => rfl
  | succ k ih => simp [amortAux, ih]

theorem amortAux_map_saldo (monthly_rate cuota : ℚ) (saldo : ℚ)
    (periodo m : ℕ) :
    (amortAux monthly_rate cuota saldo periodo m).map (fun e => e.saldo_uf)
      = (List.range m).map
          (fun i => pyRound (max 0 ((amortStep monthly_rate cuota)^[i + 1] saldo)) 4) := by
  induction m generalizing saldo periodo with
  | zero => rfl
  | succ k ih =>
    have hstep : saldo - (cuota - saldo * monthly_rate)
        = amortStep monthly_rate cuota saldo := by
      unfold amortStep; ring
    simp only [amortAux, List.map_cons, List.range_succ_eq_map, List.map_map]
    rw [hstep, ih]
    rfl

theorem amortStep_iterate_closed {rate : ℚ} (hr : 0 ≤ rate) (cuota : ℚ)
    {n : ℕ} : ∀ k, k ≤ n →
    (amortStep rate cuota)^[k] (cuota * annuityS rate n)
      = cuota * annuityS rate (n - k) := by
  intro k
  induction k with
  | zero => intro _; simp
  | succ j ih =>
    intro hj
    rw [Function.iterate_succ_apply', ih (by omega)]
    unfold amortStep
    have hnj : n - j = (n - (j + 1)) + 1 := by omega
    rw [hnj]
    have := annuityS_succ_mul hr (n - (j + 1))
    calc cuota * annuityS rate (n - (j + 1) + 1) * (1 + rate) - cuota
        = cuota * (annuityS rate (n - (j + 1) + 1) * (1 + rate)) - cuota := by ring
      _ = cuota * (1 + annuityS rate (n - (j + 1))) - cuota := by rw [this]
      _ = cuota * annuityS rate (n - (j + 1)) := by ring

theorem chain'_range_map {α : Type} (R : α → α → Prop) (g : ℕ → α) (m : ℕ)
    (h : ∀ i, i + 1 < m → R (g i) (g (i + 1))) :
    List.Chain' R ((List.range m).map g) := by
  rw [List.chain'_map]
  cases m with
  | zero => simp
  | succ k =>
    rw [List.chain'_range_succ]
    intro i hi
    exact h i (by omega)

theorem getLastD_range_map {α : Type} (g : ℕ → α) (d : α) {m : ℕ}
    (hm : 1 ≤ m) : ((List.range m).map g).getLastD d = g (m - 1) := by
  cases m with
  | zero => omega
  | succ k =>
    rw [List.range_succ, List.map_append]
    simp

/-- Claim C3: for every principal `P > 0`, annual rate percentage `r ≥ 0` and
whole-year term `years ≥ 1`, `generate_amortization_schedule P r years`
returns exactly `12*years` entries, the recorded remaining balances
(`saldo_uf`) are monotonically non-increasing from the first entry to the
last, and the final entry's balance is exactly zero (hence within any small
epsilon of zero). -/
theorem generate_amortization_schedule_spec (P r : ℚ) (years : ℕ)
    (hP : 0 < P) (hr : 0 ≤ r) (hy : 1 ≤ years) :
    (generate_amortization_schedule P r years).length = 12 * years ∧
    List.Chain' (fun a b => b.saldo_uf ≤ a.saldo_uf)
      (generate_amortization_schedule P r years) ∧
    ((generate_amortization_schedule P r years).map
      (fun e => e.saldo_uf)).getLastD 1 = 0 := by
  have hmr : 0 ≤ r / 100 / 12 := by positivity
  set mr := r / 100 / 12 with hmrdef
  set n := years * 12 with hndef
  have hn : 1 ≤ n := by omega
  set cuota := annuityPayment mr n P with hcuotadef
  have hcuota_pos : 0 < cuota := annuityPayment_pos hmr hn hP
  have hPS : cuota * annuityS mr n = P := annuityPayment_mul_S hmr hn P
  have hsch : generate_amortization_schedule P r years
      = amortAux mr cuota P 1 n := rfl
  have hiter : ∀ k, k ≤ n →
      (amortStep mr cuota)^[k] P = cuota * annuityS mr (n - k) := by
    intro k hk
    rw [← hPS]
    exact amortStep_iterate_closed hmr cuota k hk
  have hanti : ∀ k k', k ≤ k' → k' ≤ n →
      (amortStep mr cuota)^[k'] P ≤ (amortStep mr cuota)^[k] P := by
    intro k k' hkk' hk'
    rw [hiter k (by omega), hiter k' hk']
    apply mul_le_mul_of_nonneg_left _ hcuota_pos.le
    exact annuityS_mono_nper hmr (by omega)
  have hmap := amortAux_map_saldo mr cuota P 1 n
  refine ⟨?_, ?_, ?_⟩
  · rw [hsch, amortAux_length]
    omega
  · rw [hsch]
    have : List.Chain' (fun x y => y ≤ x)
        ((amortAux mr cuota P 1 n).map (fun e => e.saldo_uf)) := by
      rw [hmap]
      apply chain'_range_map
      intro i hi
      apply pyRound_mono
      apply max_le_max le_rfl
      exact hanti (i + 1) (i + 2) (by omega) (by omega)
    rw [List.chain'_map] at this
    exact this
  · rw [hsch, hmap, getLastD_range_map _ _ hn]
    have hlast : (amortStep mr cuota)^[n - 1 + 1] P = 0 := by
      have hn1 : n - 1 + 1 = n := by omega
      rw [hn1, hiter n le_rfl]
      simp [annuityS]
    rw [hlast]
    simp [pyRound_zero]

/-- Instantiation of claim C3 at `P = 3500`, `r = 4.5`, `years = 20`
(the worked scenario from the spec) with its preconditions discharged. -/
theorem generate_amortization_schedule_spec_witness :
    (0 : ℚ) < 3500 ∧ (0 : ℚ) ≤ 4.5 ∧ 1 ≤ 20 ∧
    ((generate_amortization_schedule 3500 4.5 20).length = 12 * 20 ∧
     List.Chain' (fun a b => b.saldo_uf ≤ a.saldo_uf)
       (generate_amortization_schedule 3500 4.5 20) ∧
     ((generate_amortization_schedule 3500 4.5 20).map
       (fun e => e.saldo_uf)).getLastD 1 = 0) :=
  ⟨by norm_num, by norm_num, by norm_num,
    generate_amortization_schedule_spec 3500 4.5 20 (by norm_num) (by norm_num)
      (by norm_num)⟩

/-- Claim C4: holding the principal fixed at any positive value, the base
monthly installment is monotone in the annual rate percentage and in the
term: the unrounded annuity installment is strictly increasing in the rate
(over rates ≥ 0) and strictly decreasing in the term (over terms ≥ 1), and
the recorded `cuota_base_uf` field of `calculate_mortgage_payment` (rounded
to 4 decimals) is correspondingly non-decreasing in the rate and
non-increasing in the term. -/
theorem cuota_base_monotone (P V r1 r2 : ℚ) (y1 y2 : ℕ) (hP : 0 < P)
    (hr1 : 0 ≤ r1) (hr12 : r1 < r2) (hy1 : 1 ≤ y1) (hy12 : y1 < y2) :
    annuityPayment (r1 / 100 / 12) (y1 * 12) P
      < annuityPayment (r2 / 100 / 12) (y1 * 12) P ∧
    annuityPayment (r1 / 100 / 12) (y2 * 12) P
      < annuityPayment (r1 / 100 / 12) (y1 * 12) P ∧
    (calculate_mortgage_payment P r1 y1 V).cuota_base_uf
      ≤ (calculate_mortgage_payment P r2 y1 V).cuota_base_uf ∧
    (calculate_mortgage_payment P r1 y2 V).cuota_base_uf
      ≤ (calculate_mortgage_payment P r1 y1 V).cuota_base_uf := by
  have hm1 : 0 ≤ r1 / 100 / 12 := by positivity
  have hm12 : r1 / 100 / 12 < r2 / 100 / 12 := by linarith
  have hn1 : 1 ≤ y1 * 12 := by omega
  have hn12 : y1 * 12 < y2 * 12 := by omega
  have hrate := annuityPayment_strict_mono_rate hm1 hm12 hn1 hP
  have hterm := annuityPayment_strict_anti_nper hm1 hn1 hn12 hP
  refine ⟨hrate, hterm, ?_, ?_⟩
  · exact pyRound_mono 4 hrate.le
  · exact pyRound_mono 4 hterm.le

/-- Instantiation of claim C4 at `P = 3500`, `V = 5000`, rates `4.5 < 5.5`,
terms `20 < 30`, with its preconditions discharged. -/
theorem cuota_base_monotone_witness :
    (0 : ℚ) < 3500 ∧ (0 : ℚ) ≤ 4.5 ∧ (4.5 : ℚ) < 5.5 ∧ 1 ≤ 20 ∧ 20 < 30 ∧
    (annuityPayment (4.5 / 100 / 12) (20 * 12) 3500
       < annuityPayment (5.5 / 100 / 12) (20 * 12) 3500 ∧
     annuityPayment (4.5 / 100 / 12) (30 * 12) 3500
       < annuityPayment (4.5 / 100 / 12) (20 * 12) 3500 ∧
     (calculate_mortgage_payment 3500 4.5 20 5000).cuota_base_uf
       ≤ (calculate_mortgage_payment 3500 5.5 20 5000).cuota_base_uf ∧
     (calculate_mortgage_payment 3500 4.5 30 5000).cuota_base_uf
       ≤ (calculate_mortgage_payment 3500 4.5 20 5000).cuota_base_uf) :=
  ⟨by norm_num, by norm_num, by norm_num, by norm_num, by norm_num,
    cuota_base_monotone 3500 5000 4.5 5.5 20 30 (by norm_num) (by norm_num)
      (by norm_num) (by norm_num) (by norm_num)⟩

/-- Claim C6: for every amount and every snapshot with positive rates, the
conversions round-trip exactly (hence within any floating tolerance):
`eur_to_clp (clp_to_eur x) = x` and `clp_to_uf (uf_to_clp x) = x`. -/
theorem conversion_roundtrip (rates : CurrencyRates) (x : ℚ)
    (huf : 0 < rates.uf_clp) (heur : 0 < rates.eur_clp) :
    eur_to_clp rates (clp_to_eur rates x) = x ∧
    clp_to_uf rates (uf_to_clp rates x) = x := by
  unfold eur_to_clp clp_to_eur clp_to_uf uf_to_clp
  constructor
  · field_simp
  · field_simp

/-- Instantiation of claim C6 at the fallback snapshot
`uf_clp = 38500, eur_clp = 1020` and the amount `800000`. -/
theorem conversion_roundtrip_witness :
    (0 : ℚ) < 38500 ∧ (0 : ℚ) < 1020 ∧
    (eur_to_clp (CurrencyRates.mk 38500 1020 980 0)
        (clp_to_eur (CurrencyRates.mk 38500 1020 980 0) 800000) = 800000 ∧
     clp_to_uf (CurrencyRates.mk 38500 1020 980 0)
        (uf_to_clp (CurrencyRates.mk 38500 1020 980 0) 800000) = 800000) :=
  ⟨by norm_num, by norm_num,
    conversion_roundtrip (CurrencyRates.mk 38500 1020 980 0) 800000
      (by norm_num) (by norm_num)⟩

/-- Counterexample to claim C1: `CurrencyRates` is a plain dataclass with no
validation, so a snapshot with `uf_clp = -1 ≤ 0` and `eur_clp = -2 ≤ 0` is
constructed successfully (rather than being rejected) and the conversion
functions operate on it arithmetically. -/
theorem currencyRates_negative_rates_constructible_cex :
    (CurrencyRates.mk (-1) (-2) 980 0).uf_clp ≤ 0 ∧
    (CurrencyRates.mk (-1) (-2) 980 0).eur_clp ≤ 0 ∧
    uf_to_clp (CurrencyRates.mk (-1) (-2) 980 0) 5 = -5 ∧
    clp_to_eur (CurrencyRates.mk (-1) (-2) 980 0) 10 = -5 := by
  refine ⟨by norm_num, by norm_num, ?_, ?_⟩
  · unfold uf_to_clp; norm_num
  · unfold clp_to_eur; norm_num

/-- Amended claim C1: snapshot construction performs no validation at all —
for every pair of rates with `uf_clp ≤ 0` or `eur_clp ≤ 0`, construction
succeeds and yields a snapshot carrying exactly those rates, on which the
conversion functions are total. -/
theorem currencyRates_no_validation (u e us : ℚ) (f : ℤ) (x : ℚ)
    (h : u ≤ 0 ∨ e ≤ 0) :
    ∃ rates : CurrencyRates, rates.uf_clp = u ∧ rates.eur_clp = e ∧
      uf_to_clp rates x = x * u ∧ clp_to_eur rates x = x / e :=
  ⟨CurrencyRates.mk u e us f, rfl, rfl, rfl, rfl⟩

/-- Instantiation of amended claim C1 at `uf_clp = -1, eur_clp = -2`. -/
theorem currencyRates_no_validation_witness :
    ((-1 : ℚ) ≤ 0 ∨ (-2 : ℚ) ≤ 0) ∧
    (∃ rates : CurrencyRates, rates.uf_clp = -1 ∧ rates.eur_clp = -2 ∧
      uf_to_clp rates 5 = 5 * (-1) ∧ clp_to_eur rates 5 = 5 / (-2)) :=
  ⟨Or.inl (by norm_num),
    currencyRates_no_validation (-1) (-2) 980 0 5 (Or.inl (by norm_num))⟩

/-! ### Initial investment / closing costs (`calculate_initial_investment`) -/

structure CapexBreakdown where
  pie_uf : ℚ
  impuesto_mutuo_uf : ℚ
  tasacion_uf : ℚ
  estudio_titulos_uf : ℚ
  borrador_escritura_uf : ℚ
  notaria_uf : ℚ
  cbrs_uf : ℚ
  corretaje_uf : ℚ
deriving DecidableEq

/-- Property `total_uf` of `CapexBreakdown`. -/
def CapexBreakdown.total_uf (c : CapexBreakdown) : ℚ :=
  c.pie_uf + c.impuesto_mutuo_uf + c.tasacion_uf + c.estudio_titulos_uf +
    c.borrador_escritura_uf + c.notaria_uf + c.cbrs_uf + c.corretaje_uf

/-- Property `gastos_cierre_uf` of `CapexBreakdown`. -/
def CapexBreakdown.gastos_cierre_uf (c : CapexBreakdown) : ℚ :=
  c.total_uf - c.pie_uf

/-- Embeds `RealEstateCalculator.calculate_initial_investment`. -/
def calculate_initial_investment (property_value_uf pie_percent : ℚ) :
    CapexBreakdown :=
  let pie_uf := property_value_uf * pie_percent
  let credito_uf := property_value_uf - pie_uf
  let impuesto_mutuo := credito_uf * MARKET_RATES.impuesto_mutuo
  let cbrs := min (property_value_uf * MARKET_RATES.cbrs_rate)
    MARKET_RATES.cbrs_tope_uf
  let corretaje_neto := property_value_uf * MARKET_RATES.corretaje_rate
  let corretaje_con_iva := corretaje_neto * (1 + MARKET_RATES.iva)
  { pie_uf := pyRound pie_uf 2
    impuesto_mutuo_uf := pyRound impuesto_mutuo 2
    tasacion_uf := FIXED_COSTS_UF.tasacion
    estudio_titulos_uf := FIXED_COSTS_UF.estudio_titulos
    borrador_escritura_uf := FIXED_COSTS_UF.borrador_escritura
    notaria_uf := FIXED_COSTS_UF.notaria
    cbrs_uf := pyRound cbrs 2
    corretaje_uf := pyRound corretaje_con_iva 2 }

/-- Counterexample to claim C5: at `V = 1111` the stored registry fee is the
2-decimal rounding `5.56` of `min(1111 * 0.005, 50) = 5.555`, so it differs
from the unrounded `min` value the claim asserts. -/
theorem cbrs_rounding_cex :
    (calculate_initial_investment 1111 0.30).cbrs_uf
      ≠ min (1111 * (0.005 : ℚ)) 50 := by
  show pyRound (min (1111 * MARKET_RATES.cbrs_rate) MARKET_RATES.cbrs_tope_uf) 2
      ≠ min (1111 * (0.005 : ℚ)) 50
  norm_num [pyRound, rhe, min_def, MARKET_RATES.cbrs_rate, MARKET_RATES.cbrs_tope_uf]

/-- Amended claim C5: for every property value `V > 0` and every down-payment
fraction, `calculate_initial_investment` sets `cbrs_uf` to
`min(V * 0.005, 50)` rounded to 2 decimals; in particular `V = 5000` yields
`25` and `V = 20000` yields `50` (the cap engages), where the rounding is the
identity. -/
theorem cbrs_min_cap_rounded (V pie : ℚ) (hV : 0 < V) :
    (calculate_initial_investment V pie).cbrs_uf
      = pyRound (min (V * MARKET_RATES.cbrs_rate) MARKET_RATES.cbrs_tope_uf) 2 ∧
    (calculate_initial_investment 5000 pie).cbrs_uf = 25 ∧
    (calculate_initial_investment 20000 pie).cbrs_uf = 50 := by
  refine ⟨rfl, ?_, ?_⟩
  · show pyRound (min (5000 * MARKET_RATES.cbrs_rate) MARKET_RATES.cbrs_tope_uf) 2 = 25
    norm_num [pyRound, rhe, min_def, MARKET_RATES.cbrs_rate, MARKET_RATES.cbrs_tope_uf]
  · show pyRound (min (20000 * MARKET_RATES.cbrs_rate) MARKET_RATES.cbrs_tope_uf) 2 = 50
    norm_num [pyRound, rhe, min_def, MARKET_RATES.cbrs_rate, MARKET_RATES.cbrs_tope_uf]

/-- Instantiation of amended claim C5 at `V = 5000`, `pie = 0.30`. -/
theorem cbrs_min_cap_rounded_witness :
    (0 : ℚ) < 5000 ∧
    ((calculate_initial_investment 5000 0.30).cbrs_uf
       = pyRound (min (5000 * MARKET_RATES.cbrs_rate) MARKET_RATES.cbrs_tope_uf) 2 ∧
     (calculate_initial_investment 5000 0.30).cbrs_uf = 25 ∧
     (calculate_initial_investment 20000 0.30).cbrs_uf = 50) :=
  ⟨by norm_num, cbrs_min_cap_rounded 5000 0.30 (by norm_num)⟩

/-! ### Inputs, OPEX, cash flow and return metrics -/

structure PropertyInput where
  precio_uf : ℚ
  arriendo_clp : ℚ
  gastos_comunes_clp : ℚ
  superficie_m2 : ℚ
  comuna : String
  url : String
deriving DecidableEq

structure MortgageInput where
  pie_percent : ℚ
  tasa_anual : ℚ
  plazo_anos : ℕ
deriving DecidableEq

structure OperatingInput where
  vacancy_rate : ℚ
  property_mgmt_rate : ℚ
  maintenance_rate : ℚ
  plusvalia_annual : ℚ
deriving DecidableEq

structure OpexBreakdown where
  contribuciones_clp : ℚ
  administracion_clp : ℚ
  mantencion_clp : ℚ
  vacancia_clp : ℚ
  gastos_comunes_clp : ℚ
deriving DecidableEq

/-- Property `total_clp` of `OpexBreakdown`. -/
def OpexBreakdown.total_clp (o : OpexBreakdown) : ℚ :=
  o.contribuciones_clp + o.administracion_clp + o.mantencion_clp +
    o.vacancia_clp + o.gastos_comunes_clp

/-- Embeds `RealEstateCalculator.calculate_monthly_opex`. -/
def calculate_monthly_opex (rates : CurrencyRates)
    (property_value_uf arriendo_clp gastos_comunes_clp : ℚ)
    (operating : OperatingInput) : OpexBreakdown :=
  let valor_comercial_clp := uf_to_clp rates property_value_uf
  let contribuciones_annual := valor_comercial_clp * MARKET_RATES.contribuciones_annual
  let contribuciones_monthly := contribuciones_annual / 12
  let admin_neto := arriendo_clp * operating.property_mgmt_rate
  let administracion := admin_neto * (1 + MARKET_RATES.iva)
  let mantencion := arriendo_clp * operating.maintenance_rate
  let vacancia := arriendo_clp * operating.vacancy_rate
  { contribuciones_clp := pyRound contribuciones_monthly 0
    administracion_clp := pyRound administracion 0
    mantencion_clp := pyRound mantencion 0
    vacancia_clp := pyRound vacancia 0
    gastos_comunes_clp := pyRound gastos_comunes_clp 0 }

/-- Embeds `RealEstateCalculator.calculate_monthly_cashflow`: returns
`(NOI, cashflow)` in CLP. -/
def calculate_monthly_cashflow (rates : CurrencyRates) (arriendo_clp : ℚ)
    (opex : OpexBreakdown) (mortgage : MortgagePayment) : ℚ × ℚ :=
  let noi_clp := arriendo_clp - opex.total_clp
  let dividendo_clp := uf_to_clp rates mortgage.dividendo_total_uf
  (noi_clp, noi_clp - dividendo_clp)

/-- Embeds `RealEstateCalculator.calculate_cap_rate`. -/
def calculate_cap_rate (noi_annual_clp property_value_clp : ℚ) : ℚ :=
  if property_value_clp ≤ 0 then 0 else noi_annual_clp / property_value_clp

/-- Embeds `RealEstateCalculator.calculate_cash_on_cash`. -/
def calculate_cash_on_cash (cashflow_annual_clp cash_invested_clp : ℚ) : ℚ :=
  if cash_invested_clp ≤ 0 then 0 else cashflow_annual_clp / cash_invested_clp

/-- Embeds `RealEstateCalculator.calculate_irr`.  The iterative floating-point root
finder `npf.irr` (library code, wrapped in the source's `try`/`except` which
yields `None` on non-convergence, `nan` or any exception) is abstracted as
the `solver` parameter.  The cash-flow vector
`[-cash_invested] + monthly_cashflows[:-1] + [monthly_cashflows[-1] + exit_value]`
is assembled before the `try`, so the `IndexError` raised by
`monthly_cashflows[-1]` on an empty list propagates to the caller; that
uncaught exception is the `.error ()` outcome.  A converged monthly root is
annualized to `(1 + r)^12 - 1`. -/
def calculate_irr (solver : List ℚ → Option ℚ) (cash_invested : ℚ)
    (monthly_cashflows : List ℚ) (exit_value : ℚ) : Except Unit (Option ℚ) :=
  match monthly_cashflows.getLast? with
  | none => .error ()
  | some last =>
    let cashflows := (-cash_invested :: monthly_cashflows.dropLast) ++ [last + exit_value]
    .ok ((solver cashflows).map (fun irr_monthly => (1 + irr_monthly) ^ 12 - 1))

/-- Embeds `RealEstateCalculator.project_property_value`: `years+1` values of
geometric growth, `value[0] = initial`, `value[k] = value[k-1]*(1+rate)`. -/
def project_property_value (initial_value_uf : ℚ) (years : ℕ)
    (plusvalia_rate : ℚ) : List ℚ :=
  match years with
  | 0 => [initial_value_uf]
  | y + 1 =>
    initial_value_uf ::
      project_property_value (initial_value_uf * (1 + plusvalia_rate)) y plusvalia_rate

theorem project_property_value_length (initial : ℚ) (years : ℕ) (rate : ℚ) :
    (project_property_value initial years rate).length = years + 1 := by
  induction years generalizing initial with
  | zero => rfl
  | succ y ih => simp [project_property_value, ih]

theorem generate_amortization_schedule_length (P r : ℚ) (years : ℕ) :
    (generate_amortization_schedule P r years).length = years * 12 := by
  unfold generate_amortization_schedule
  exact amortAux_length _ _ _ _ _

/-! ### Full analysis (`analyze_investment`) -/

structure InvestmentMetrics where
  precio_total_uf : ℚ
  precio_total_eur : ℚ
  inversion_inicial_uf : ℚ
  inversion_inicial_eur : ℚ
  dividendo_mensual_uf : ℚ
  dividendo_mensual_eur : ℚ
  noi_mensual_clp : ℚ
  noi_mensual_eur : ℚ
  cashflow_mensual_clp : ℚ
  cashflow_mensual_eur : ℚ
  cap_rate : ℚ
  cash_on_cash : ℚ
  irr_5_years : Option ℚ
  irr_10_years : Option ℚ
  capex_breakdown : CapexBreakdown
  opex_breakdown : OpexBreakdown
  mortgage_payment : MortgagePayment
  currency_rates : CurrencyRates
  is_cashflow_positive : Bool
deriving DecidableEq

/-- Embeds `RealEstateCalculator.analyze_investment`.  The IRR fields reproduce the
source's `round(irr_5, 4) if irr_5 else None`, where Python float truthiness
makes both `None` and `0.0` falsy.  List indexing (`amortization[59]`,
`amortization[119]`, `property_values[5]`, `property_values[10]`) is embedded
with `[·]?`; a `none` result models the uncaught `IndexError` when the
mortgage term is shorter than the 5/10-year horizons. -/
def analyze_investment (solver : List ℚ → Option ℚ) (rates : CurrencyRates)
    (property_input : PropertyInput) (mortgage_input : MortgageInput)
    (operating_input : OperatingInput) : Option InvestmentMetrics :=
  let precio_uf := property_input.precio_uf
  let arriendo_clp := property_input.arriendo_clp
  let gastos_comunes := property_input.gastos_comunes_clp
  let capex := calculate_initial_investment precio_uf mortgage_input.pie_percent
  let credito_uf := precio_uf - capex.pie_uf
  let mortgage_payment := calculate_mortgage_payment credito_uf
    mortgage_input.tasa_anual mortgage_input.plazo_anos precio_uf
  let opex := calculate_monthly_opex rates precio_uf arriendo_clp
    gastos_comunes operating_input
  let noicf := calculate_monthly_cashflow rates arriendo_clp opex mortgage_payment
  let noi_clp := noicf.1
  let cashflow_clp := noicf.2
  let precio_clp := uf_to_clp rates precio_uf
  let capex_clp := uf_to_clp rates capex.total_uf
  let cap_rate := calculate_cap_rate (noi_clp * 12) precio_clp
  let cash_on_cash := calculate_cash_on_cash (cashflow_clp * 12) capex_clp
  let amortization := generate_amortization_schedule credito_uf
    mortgage_input.tasa_anual mortgage_input.plazo_anos
  let property_values := project_property_value precio_uf 10
    operating_input.plusvalia_annual
  do
  let pv5 ← property_values[5]?
  let a59 ← amortization[59]?
  let equity_5y := uf_to_clp rates (pv5 - a59.saldo_uf)
  let irr_5 ← (calculate_irr solver capex_clp (List.replicate 60 cashflow_clp) equity_5y).toOption
  let pv10 ← property_values[10]?
  let a119 ← amortization[119]?
  let equity_10y := uf_to_clp rates (pv10 - a119.saldo_uf)
  let irr_10 ← (calculate_irr solver capex_clp (List.replicate 120 cashflow_clp) equity_10y).toOption
  some
    { precio_total_uf := precio_uf
      precio_total_eur := pyRound (uf_to_eur rates precio_uf) 2
      inversion_inicial_uf := capex.total_uf
      inversion_inicial_eur := pyRound (uf_to_eur rates capex.total_uf) 2
      dividendo_mensual_uf := mortgage_payment.dividendo_total_uf
      dividendo_mensual_eur := pyRound (uf_to_eur rates mortgage_payment.dividendo_total_uf) 2
      noi_mensual_clp := pyRound noi_clp 0
      noi_mensual_eur := pyRound (clp_to_eur rates noi_clp) 2
      cashflow_mensual_clp := pyRound cashflow_clp 0
      cashflow_mensual_eur := pyRound (clp_to_eur rates cashflow_clp) 2
      cap_rate := pyRound cap_rate 4
      cash_on_cash := pyRound cash_on_cash 4
      irr_5_years := match irr_5 with
        | none => none
        | some v => if v = 0 then none else some (pyRound v 4)
      irr_10_years := match irr_10 with
        | none => none
        | some v => if v = 0 then none else some (pyRound v 4)
      capex_breakdown := capex
      opex_breakdown := opex
      mortgage_payment := mortgage_payment
      currency_rates := rates
      is_cashflow_positive := decide (0 < cashflow_clp) }

/-- Claim C8: `calculate_irr` propagates the uncaught `IndexError` exactly
when `monthly_cashflows` is the empty list; for every non-empty list it
returns normally (`.ok`), carrying either an annualized rate or `None`. -/
theorem calculate_irr_indexError_iff_empty (solver : List ℚ → Option ℚ)
    (cash_invested exit_value : ℚ) (monthly_cashflows : List ℚ) :
    calculate_irr solver cash_invested monthly_cashflows exit_value = .error ()
      ↔ monthly_cashflows = [] := by
  unfold calculate_irr
  cases h : monthly_cashflows.getLast? with
  | none =>
    simp only [List.getLast?_eq_none_iff] at h
    simp [h]
  | some last =>
    constructor
    · intro hc
      exact absurd hc (by simp)
    · intro hc
      subst hc
      simp at h

theorem calculate_irr_solver_const {r : ℚ} (solver : List ℚ → Option ℚ)
    (hs : ∀ cfs, solver cfs = some r) (cash_invested exit_value : ℚ)
    {monthly_cashflows : List ℚ} (h : monthly_cashflows ≠ []) :
    calculate_irr solver cash_invested monthly_cashflows exit_value
      = .ok (some ((1 + r) ^ 12 - 1)) := by
  unfold calculate_irr
  cases hl : monthly_cashflows.getLast? with
  | none =>
    simp only [List.getLast?_eq_none_iff] at hl
    exact absurd hl h
  | some last => simp [hs]

theorem calculate_irr_replicate_const {r : ℚ} (solver : List ℚ → Option ℚ)
    (hs : ∀ cfs, solver cfs = some r) (cash_invested exit_value cf : ℚ)
    (n : ℕ) (hn : n ≠ 0) :
    calculate_irr solver cash_invested (List.replicate n cf) exit_value
      = .ok (some ((1 + r) ^ 12 - 1)) :=
  calculate_irr_solver_const solver hs cash_invested exit_value
    (by simp [hn])

/-- Claim C2 is violated by the code: when the IRR root finder converges to
the numeric monthly rate `0` (annualized rate `0`), `calculate_irr` returns
the number `0`, yet `analyze_investment` stores `None` in `irr_5_years` and
`irr_10_years`, because `round(irr_5, 4) if irr_5 else None` treats the
float `0.0` as falsy.  So the optional IRR fields are not `None` exactly on
non-convergence: a legitimate zero rate is also reported as indeterminate. -/
theorem analyze_investment_zero_irr_reported_none
    (solver : List ℚ → Option ℚ) (hs : ∀ cfs, solver cfs = some 0)
    (rates : CurrencyRates) (p : PropertyInput) (mi : MortgageInput)
    (oi : OperatingInput) (h10 : 10 ≤ mi.plazo_anos) :
    ∃ metrics : InvestmentMetrics,
      analyze_investment solver rates p mi oi = some metrics ∧
      metrics.irr_5_years = none ∧ metrics.irr_10_years = none := by
  have hz : (1 + (0 : ℚ)) ^ 12 - 1 = 0 := by norm_num
  have hirr5 : ∀ c e cf : ℚ,
      calculate_irr solver c (List.replicate 60 cf) e = .ok (some 0) := by
    intro c e cf
    rw [calculate_irr_replicate_const solver hs c e cf 60 (by norm_num), hz]
  have hirr10 : ∀ c e cf : ℚ,
      calculate_irr solver c (List.replicate 120 cf) e = .ok (some 0) := by
    intro c e cf
    rw [calculate_irr_replicate_const solver hs c e cf 120 (by norm_num), hz]
  simp only [analyze_investment]
  have hpvlen : ∀ i, i < 11 →
      i < (project_property_value p.precio_uf 10 oi.plusvalia_annual).length := by
    intro i hi
    rw [project_property_value_length]
    omega
  have halen : ∀ i, i < 120 →
      i < (generate_amortization_schedule
        (p.precio_uf - (calculate_initial_investment p.precio_uf mi.pie_percent).pie_uf)
        mi.tasa_anual mi.plazo_anos).length := by
    intro i hi
    rw [generate_amortization_schedule_length]
    omega
  obtain ⟨pv5, hpv5⟩ : ∃ x,
      (project_property_value p.precio_uf 10 oi.plusvalia_annual)[5]? = some x :=
    ⟨_, List.getElem?_eq_getElem (hpvlen 5 (by omega))⟩
  obtain ⟨pv10, hpv10⟩ : ∃ x,
      (project_property_value p.precio_uf 10 oi.plusvalia_annual)[10]? = some x :=
    ⟨_, List.getElem?_eq_getElem (hpvlen 10 (by omega))⟩
  obtain ⟨a59, ha59⟩ : ∃ x,
      (generate_amortization_schedule
        (p.precio_uf - (calculate_initial_investment p.precio_uf mi.pie_percent).pie_uf)
        mi.tasa_anual mi.plazo_anos)[59]? = some x :=
    ⟨_, List.getElem?_eq_getElem (halen 59 (by omega))⟩
  obtain ⟨a119, ha119⟩ : ∃ x,
      (generate_amortization_schedule
        (p.precio_uf - (calculate_initial_investment p.precio_uf mi.pie_percent).pie_uf)
        mi.tasa_anual mi.plazo_anos)[119]? = some x :=
    ⟨_, List.getElem?_eq_getElem (halen 119 (by omega))⟩
  rw [hpv5, ha59, hpv10, ha119]
  simp only [hirr5, hirr10, Except.toOption, Option.some_bind]
  exact ⟨_, rfl, by simp, by simp⟩

/-- Instantiation of the C2 divergence: a solver that always converges to the
monthly rate `0`, the fallback snapshot, the example property (price 5000 UF,
rent 800000 CLP) and a 20-year mortgage; both IRR fields come out `None`
although the underlying IRR computation returned the number `0`. -/
theorem analyze_investment_zero_irr_reported_none_witness :
    (∀ cfs : List ℚ, (fun _ : List ℚ => some (0 : ℚ)) cfs = some 0) ∧
    10 ≤ (MortgageInput.mk 0.30 4.5 20).plazo_anos ∧
    (∃ metrics : InvestmentMetrics,
      analyze_investment (fun _ => some 0) (CurrencyRates.mk 38500 1020 980 0)
        (PropertyInput.mk 5000 800000 80000 65 "Providencia" "")
        (MortgageInput.mk 0.30 4.5 20)
        (OperatingInput.mk 0.05 0.10 0.05 0.02) = some metrics ∧
      metrics.irr_5_years = none ∧ metrics.irr_10_years = none) :=
  ⟨fun _ => rfl, by norm_num,
    analyze_investment_zero_irr_reported_none (fun _ => some 0) (fun _ => rfl)
      (CurrencyRates.mk 38500 1020 980 0)
      (PropertyInput.mk 5000 800000 80000 65 "Providencia" "")
      (MortgageInput.mk 0.30 4.5 20)
      (OperatingInput.mk 0.05 0.10 0.05 0.02) (by norm_num)⟩

/-! ### Market intelligence: synthetic rent comparables
(`market_intelligence.py`, `MarketCompScraper`)

Python's global `random` module (Mersenne-Twister, library code) is
abstracted as an explicit pseudo-random implementation over an arbitrary
state type: `seedFn` models `random.seed`, `uniformFn` models
`random.uniform`, `choiceFn` models `random.choice` over integer lists.
The ambient pre-call state of the global generator is passed explicitly to
`generate_synthetic_comparables` (parameter `g0`); the source's
`random.seed(42)` at the top of the function replaces it. -/

structure PyRandomImpl (σ : Type) where
  seedFn : ℕ → σ
  uniformFn : ℚ → ℚ → σ → ℚ × σ
  choiceFn : List ℤ → σ → ℤ × σ

structure RentComparable where
  precio_clp : ℚ
  superficie_m2 : ℚ
  comuna : String
  dormitorios : ℤ
  banos : ℤ
  url : Option String
  precio_m2 : ℚ
deriving DecidableEq

/-- Embeds `RentComparable` dataclass construction including its `__post_init__`,
which derives `precio_m2 = precio_clp / superficie_m2` when the area is
positive and leaves the default `0.0` otherwise. -/
def mkRentComparable (precio_clp superficie_m2 : ℚ) (comuna : String)
    (dormitorios banos : ℤ) (url : Option String) : RentComparable :=
  { precio_clp := precio_clp
    superficie_m2 := superficie_m2
    comuna := comuna
    dormitorios := dormitorios
    banos := banos
    url := url
    precio_m2 := if 0 < superficie_m2 then precio_clp / superficie_m2 else 0 }

/-- One iteration of the generator loop of
`MarketCompScraper._generate_synthetic_comparables`: perturb the area ±15%,
draw a price per m² from the commune range, apply the size and bedroom
adjustments, and build the comparable (price rounded to thousands, area to
one decimal). -/
def syntheticSample {σ : Type} (R : PyRandomImpl σ) (comuna : String)
    (superficie_m2 : ℚ) (dormitorios : ℤ) (min_price_m2 max_price_m2 : ℚ)
    (g : σ) : RentComparable × σ :=
  let sf := R.uniformFn 0.85 1.15 g
  let sup := superficie_m2 * sf.1
  let pm := R.uniformFn min_price_m2 max_price_m2 sf.2
  let price_m2_size := if 100 < sup then pm.1 * 0.92
    else if sup < 50 then pm.1 * 1.05 else pm.1
  let dorm_adjust := 1 + ((dormitorios : ℚ) - 2) * 0.03
  let price_m2 := price_m2_size * dorm_adjust
  let precio_total := price_m2 * sup
  let dc := R.choiceFn [-1, 0, 0, 1] pm.2
  let bc := R.choiceFn [-1, 0] dc.2
  (mkRentComparable (pyRound precio_total (-3)) (pyRound sup 1) comuna
    (dormitorios + dc.1) (max 1 (dormitorios + bc.1)) none, bc.2)

def syntheticLoop {σ : Type} (R : PyRandomImpl σ) (comuna : String)
    (superficie_m2 : ℚ) (dormitorios : ℤ) (min_price_m2 max_price_m2 : ℚ) :
    σ → ℕ → List RentComparable
  | _, 0 => []
  | g, n + 1 =>
    let cg := syntheticSample R comuna superficie_m2 dormitorios
      min_price_m2 max_price_m2 g
    cg.1 :: syntheticLoop R comuna superficie_m2 dormitorios
      min_price_m2 max_price_m2 cg.2 n

/-- Embeds `MarketCompScraper._generate_synthetic_comparables`.  `rent_data` is the
commune → (min, max) price-per-m² table (`self.rent_data`, whose `.get`
falls back to the `"_default"` entry); `g0` is the ambient state of the
global random generator at call time, which the function immediately
discards by reseeding with the fixed seed 42. -/
def generate_synthetic_comparables {σ : Type} (R : PyRandomImpl σ) (g0 : σ)
    (rent_data : List (String × (ℚ × ℚ))) (comuna : String)
    (superficie_m2 : ℚ) (dormitorios : ℤ) (n_samples : ℕ) :
    List RentComparable :=
  let rent_range := ((rent_data.find? (fun e => e.1 == comuna)).map Prod.snd).getD
    (((rent_data.find? (fun e => e.1 == "_default")).map Prod.snd).getD (0, 0))
  let g := R.seedFn 42
  syntheticLoop R comuna superficie_m2 dormitorios rent_range.1 rent_range.2
    g n_samples

/-- Claim C7: the synthetic comparable generator is deterministic.  Because
it reseeds the random source with the fixed seed 42 before drawing, its
output does not depend on the ambient random-generator state (`g1` vs `g2`
— the only thing that can differ between two calls with identical arguments,
whether in the same run or across runs), so two such calls return identical
lists, element for element; and this holds for every pseudo-random
implementation `R`. -/
theorem generate_synthetic_comparables_deterministic {σ : Type}
    (R : PyRandomImpl σ) (g1 g2 : σ) (rent_data : List (String × (ℚ × ℚ)))
    (comuna : String) (superficie_m2 : ℚ) (dormitorios : ℤ) (n_samples : ℕ) :
    generate_synthetic_comparables R g1 rent_data comuna superficie_m2
        dormitorios n_samples
      = generate_synthetic_comparables R g2 rent_data comuna superficie_m2
        dormitorios n_samples := rfl

/-! ### Outlier removal (`MarketCompScraper._remove_outliers`)

`statistics.mean` and `statistics.stdev` (library code) are embedded by
their definitions: arithmetic mean, and square root of the Bessel-corrected
sample variance (denominator `n - 1`).  The square root lives in `ℝ`. -/

def mean (l : List ℚ) : ℚ := l.sum / l.length

def sampleVariance (l : List ℚ) : ℚ :=
  ((l.map (fun x => (x - mean l) ^ 2)).sum) / ((l.length : ℚ) - 1)

/-- Embeds `statistics.stdev`: the sample standard deviation. -/
noncomputable def stdev (l : List ℚ) : ℝ := Real.sqrt (sampleVariance l)

/-- Embeds `MarketCompScraper._remove_outliers`: with fewer than 3 samples or zero
standard deviation the input is returned unchanged; otherwise samples whose
price lies outside `mean ± std_factor · stdev` are dropped (the bounds are
inclusive). -/
noncomputable def remove_outliers (comparables : List RentComparable)
    (std_factor : ℚ) : List RentComparable :=
  if comparables.length < 3 then comparables
  else if stdev (comparables.map (fun c => c.precio_clp)) = 0 then comparables
  else
    List.filter (fun c =>
      decide (
        ((mean (comparables.map (fun c2 => c2.precio_clp)) : ℚ) : ℝ)
            - stdev (comparables.map (fun c2 => c2.precio_clp)) * (std_factor : ℝ)
          ≤ ((c.precio_clp : ℚ) : ℝ) ∧
        ((c.precio_clp : ℚ) : ℝ)
          ≤ ((mean (comparables.map (fun c2 => c2.precio_clp)) : ℚ) : ℝ)
            + stdev (comparables.map (fun c2 => c2.precio_clp)) * (std_factor : ℝ)))
      comparables

theorem list_sum_map_const {α : Type} (l : List α) (b : ℚ) :
    (l.map (fun _ => b)).sum = l.length * b := by
  induction l with
  | nil => simp
  | cons a t ih =>
    simp only [List.map_cons, List.sum_cons, List.length_cons, ih]
    push_cast
    ring

theorem list_sum_lt_sum {α : Type} {l : List α} (f g : α → ℚ) (hne : l ≠ [])
    (h : ∀ x ∈ l, f x < g x) : (l.map f).sum < (l.map g).sum := by
  induction l with
  | nil => exact absurd rfl hne
  | cons a t ih =>
    cases t with
    | nil => simpa using h a (by simp)
    | cons b t2 =>
      simp only [List.map_cons, List.sum_cons]
      have h1 := h a (by simp)
      have h2 := ih (by simp) (fun x hx => h x (List.mem_cons_of_mem a hx))
      simp only [List.map_cons, List.sum_cons] at h2
      linarith

theorem sampleVariance_nonneg {l : List ℚ} (hl : 2 ≤ l.length) :
    0 ≤ sampleVariance l := by
  unfold sampleVariance
  apply div_nonneg
  · apply List.sum_nonneg
    intro x hx
    simp only [List.mem_map] at hx
    obtain ⟨y, _, rfl⟩ := hx
    positivity
  · have : (2 : ℚ) ≤ l.length := by exact_mod_cast hl
    linarith

theorem sampleVariance_sum {l : List ℚ} (hl : 2 ≤ l.length) :
    (l.map (fun x => (x - mean l) ^ 2)).sum
      = sampleVariance l * ((l.length : ℚ) - 1) := by
  unfold sampleVariance
  have hne : ((l.length : ℚ) - 1) ≠ 0 := by
    have : (2 : ℚ) ≤ l.length := by exact_mod_cast hl
    linarith
  field_simp

/-- Claim C9: for every non-empty list of comparables, `_remove_outliers`
with the default `std_factor = 2.0` returns a non-empty list: with fewer than
3 samples or zero sample variance the input is returned unchanged, and
otherwise at least one sample always lies within two sample standard
deviations of the mean and survives the filter.  Consequently the fallback
in `analyze_market_rent` that reverts to the unfiltered comparables when the
filtered list is empty can never trigger. -/
theorem remove_outliers_nonempty (comparables : List RentComparable)
    (h : comparables ≠ []) : remove_outliers comparables 2 ≠ [] := by
  unfold remove_outliers
  split_ifs with h3 hstd
  · exact h
  · exact h
  · set prices := comparables.map (fun c => c.precio_clp) with hprices
    have hlenmap : prices.length = comparables.length := List.length_map _ _
    have hn3 : 3 ≤ comparables.length := by omega
    have hlen2 : 2 ≤ prices.length := by omega
    set μ := mean prices with hμ
    set v := sampleVariance prices with hv
    have hvnonneg : 0 ≤ v := sampleVariance_nonneg hlen2
    have hvpos : 0 < v := by
      rcases lt_or_eq_of_le hvnonneg with hlt | heq
      · exact hlt
      · exfalso
        apply hstd
        unfold stdev
        rw [← hv, ← heq]
        simp
    have hvR : (0 : ℝ) ≤ (v : ℝ) := by exact_mod_cast hvnonneg
    have hsq : stdev prices ^ 2 = (v : ℝ) := by
      unfold stdev
      rw [← hv]
      exact Real.sq_sqrt hvR
    have hsnonneg : 0 ≤ stdev prices := Real.sqrt_nonneg _
    intro hempty
    have hall : ∀ c ∈ comparables,
        ¬(((μ : ℚ) : ℝ) - stdev prices * ((2 : ℚ) : ℝ) ≤ ((c.precio_clp : ℚ) : ℝ) ∧
          ((c.precio_clp : ℚ) : ℝ) ≤ ((μ : ℚ) : ℝ) + stdev prices * ((2 : ℚ) : ℝ)) := by
      intro c hc
      have := List.filter_eq_nil_iff.mp hempty c hc
      simpa using this
    have hsq_gt : ∀ c ∈ comparables, 4 * v < (c.precio_clp - μ) ^ 2 := by
      intro c hc
      have hnc := hall c hc
      push_neg at hnc
      have hR : (4 : ℝ) * (v : ℝ) < (((c.precio_clp - μ : ℚ)) : ℝ) ^ 2 := by
        have h2s : (2 : ℝ) * stdev prices ≥ 0 := by positivity
        have hbound : (2 : ℝ) * stdev prices < |((c.precio_clp - μ : ℚ) : ℝ)| := by
          push_cast
          rcases lt_or_le (((c.precio_clp : ℚ) : ℝ))
              (((μ : ℚ) : ℝ) - stdev prices * ((2 : ℚ) : ℝ)) with hlo | hlo
          · rw [abs_sub_comm, lt_abs]
            left
            push_cast at hlo
            linarith
          · have hhi := hnc hlo
            rw [lt_abs]
            left
            push_cast at hhi
            linarith
        calc (4 : ℝ) * (v : ℝ) = (2 * stdev prices) ^ 2 := by
              rw [mul_pow, hsq]; ring
          _ < |((c.precio_clp - μ : ℚ) : ℝ)| ^ 2 := by
              apply pow_lt_pow_left₀ hbound h2s
              norm_num
          _ = (((c.precio_clp - μ : ℚ)) : ℝ) ^ 2 := sq_abs _
      exact_mod_cast hR
    have hsum_lt := list_sum_lt_sum (fun _ => 4 * v)
      (fun c => (c.precio_clp - μ) ^ 2) h hsq_gt
    rw [list_sum_map_const] at hsum_lt
    have hmapmap : (comparables.map (fun c => (c.precio_clp - μ) ^ 2)).sum
        = (prices.map (fun x => (x - μ) ^ 2)).sum := by
      rw [hprices, List.map_map]
      rfl
    rw [hmapmap, hμ, sampleVariance_sum hlen2, ← hv, hlenmap] at hsum_lt
    have hnQ : (3 : ℚ) ≤ (comparables.length : ℚ) := by exact_mod_cast hn3
    nlinarith [hvpos, hsum_lt, hnQ]

/-- Instantiation of claim C9 at a concrete one-element comparable list. -/
theorem remove_outliers_nonempty_witness :
    [mkRentComparable 500000 50 "Santiago" 2 1 none] ≠ ([] : List RentComparable) ∧
    remove_outliers [mkRentComparable 500000 50 "Santiago" 2 1 none] 2 ≠ [] :=
  ⟨by simp, remove_outliers_nonempty [mkRentComparable 500000 50 "Santiago" 2 1 none]
    (by simp)⟩

/-! ### Location analysis (`LocationAnalyzer`)

`haversine_distance` computes spherical trigonometry over machine floats;
it is abstracted as the distance-function parameter `hav`, so every theorem
below holds for every such function.  The commune-coordinate table and the
metro-station list are the `COMMUNE_COORDINATES` / `self.stations` data,
passed as parameters.  `float('inf')` (the distance reported when no
coordinates resolve) is embedded as `⊤ : WithTop ℚ`. -/

structure MetroStationData where
  name : String
  line : String
  lat : ℚ
  lon : ℚ
deriving DecidableEq

structure MetroStation where
  name : String
  line : String
  lat : ℚ
  lon : ℚ
  distance_m : ℚ
deriving DecidableEq

inductive ConnectivityLevel where
  | HIGH
  | MEDIUM
  | LOW
  | NONE
deriving DecidableEq

structure LocationAnalysisResult where
  nearest_station : Option MetroStation
  distance_meters : WithTop ℚ
  connectivity_level : ConnectivityLevel
  nearby_stations : List MetroStation
  metro_lines_nearby : List String
  walking_time_minutes : ℤ
  has_metro_access : Bool
deriving DecidableEq

/-- The "no transit access" result returned when no coordinates resolve. -/
def noMetroResult : LocationAnalysisResult :=
  { nearest_station := none
    distance_meters := ⊤
    connectivity_level := ConnectivityLevel.NONE
    nearby_stations := []
    metro_lines_nearby := []
    walking_time_minutes := 0
    has_metro_access := false }

/-- Python's `int()` truncation toward zero on a rational value. -/
def pyInt (q : ℚ) : ℤ := if q < 0 then ⌈q⌉ else ⌊q⌋

/-- The connectivity banding of `LocationAnalyzer.analyze`:
`< 500` HIGH, `< 800` MEDIUM, `< 1500` LOW, else NONE. -/
def connectivityOf (d : WithTop ℚ) : ConnectivityLevel :=
  if d < ((500 : ℚ) : WithTop ℚ) then ConnectivityLevel.HIGH
  else if d < ((800 : ℚ) : WithTop ℚ) then ConnectivityLevel.MEDIUM
  else if d < ((1500 : ℚ) : WithTop ℚ) then ConnectivityLevel.LOW
  else ConnectivityLevel.NONE

/-- Lower-casing of a string (`str.lower`). -/
def toLowerStr (s : String) : String := s.map Char.toLower

/-- Python's substring containment `needle in haystack`. -/
def containsSubstr (needle haystack : String) : Bool :=
  haystack.toList.tails.any (fun t => needle.toList.isPrefixOf t)

namespace LocationAnalyzer

/-- Embeds `LocationAnalyzer.get_coordinates_for_comuna`: exact dictionary lookup,
then the first entry matching by case-insensitive substring containment in
either direction. -/
def get_coordinates_for_comuna (table : List (String × (ℚ × ℚ)))
    (comuna : String) : Option (ℚ × ℚ) :=
  match table.find? (fun e => e.1 == comuna) with
  | some e => some e.2
  | none =>
    match table.find? (fun e =>
        containsSubstr (toLowerStr e.1) (toLowerStr comuna)
          || containsSubstr (toLowerStr comuna) (toLowerStr e.1)) with
    | some e => some e.2
    | none => none

/-- Main path of `LocationAnalyzer.analyze` once coordinates are known:
distance to every station, sort, nearest, banding, stations within 1.5 km,
deduplicated sorted line list, walking time (`int(distance/80)` under 3 km,
else 0 — also 0 when there is no nearest station, i.e. infinite distance),
and `has_metro_access = distance < 1500`. -/
def analyzeAt (hav : ℚ → ℚ → ℚ → ℚ → ℚ) (stations : List MetroStationData)
    (lat lon : ℚ) : LocationAnalysisResult :=
  let stations_with_distance := stations.map (fun s =>
    MetroStation.mk s.name s.line s.lat s.lon (hav lat lon s.lat s.lon))
  let sorted := stations_with_distance.mergeSort
    (fun a b => a.distance_m ≤ b.distance_m)
  let nearest := sorted.head?
  let distance : WithTop ℚ := match nearest with
    | some s => ((s.distance_m : ℚ) : WithTop ℚ)
    | none => ⊤
  let nearby := sorted.filter (fun s => s.distance_m ≤ 1500)
  let lines := ((nearby.map (fun s => s.line)).dedup).mergeSort
    (fun a b => a ≤ b)
  let walking_time : ℤ := match nearest with
    | some s => if s.distance_m < 3000 then pyInt (s.distance_m / 80) else 0
    | none => 0
  { nearest_station := nearest
    distance_meters := distance
    connectivity_level := connectivityOf distance
    nearby_stations := nearby.take 5
    metro_lines_nearby := lines
    walking_time_minutes := walking_time
    has_metro_access := decide (distance < ((1500 : ℚ) : WithTop ℚ)) }

/-- The coordinate-resolution path of `LocationAnalyzer.analyze` taken when
a coordinate is missing: resolve the commune name (Python's `if comuna:`
treats the empty string like `None`), returning the "no transit access"
result when nothing resolves. -/
def analyzeFromComuna (hav : ℚ → ℚ → ℚ → ℚ → ℚ)
    (table : List (String × (ℚ × ℚ))) (stations : List MetroStationData)
    (comuna : Option String) : LocationAnalysisResult :=
  match comuna with
  | none => noMetroResult
  | some c =>
    if c = "" then noMetroResult
    else
      match get_coordinates_for_comuna table c with
      | some p => analyzeAt hav stations p.1 p.2
      | none => noMetroResult

/-- Embeds `LocationAnalyzer.analyze`: use the given coordinates when both are
present; otherwise fall back to the commune lookup. -/
def analyze (hav : ℚ → ℚ → ℚ → ℚ → ℚ) (table : List (String × (ℚ × ℚ)))
    (stations : List MetroStationData) (lat lon : Option ℚ)
    (comuna : Option String) : LocationAnalysisResult :=
  match lat, lon with
  | some la, some lo => analyzeAt hav stations la lo
  | _, _ => analyzeFromComuna hav table stations comuna

end LocationAnalyzer

theorem connectivityOf_eq_none_iff (d : WithTop ℚ) :
    connectivityOf d = ConnectivityLevel.NONE
      ↔ ¬ d < ((1500 : ℚ) : WithTop ℚ) := by
  unfold connectivityOf
  split_ifs with h1 h2 h3
  · have hd : d < ((1500 : ℚ) : WithTop ℚ) :=
      lt_trans h1 (WithTop.coe_lt_coe.mpr (by norm_num))
    exact iff_of_false (by simp) (not_not_intro hd)
  · have hd : d < ((1500 : ℚ) : WithTop ℚ) :=
      lt_trans h2 (WithTop.coe_lt_coe.mpr (by norm_num))
    exact iff_of_false (by simp) (not_not_intro hd)
  · exact iff_of_false (by simp) (not_not_intro h3)
  · exact iff_of_true rfl h3

theorem connectivityOf_ne_none_iff (d : WithTop ℚ) :
    connectivityOf d ≠ ConnectivityLevel.NONE
      ↔ d < ((1500 : ℚ) : WithTop ℚ) := by
  rw [Ne, connectivityOf_eq_none_iff, not_not]

theorem analyzeAt_invariant (hav : ℚ → ℚ → ℚ → ℚ → ℚ)
    (stations : List MetroStationData) (lat lon : ℚ) :
    ((LocationAnalyzer.analyzeAt hav stations lat lon).has_metro_access = true
       ↔ (LocationAnalyzer.analyzeAt hav stations lat lon).connectivity_level
           ≠ ConnectivityLevel.NONE) ∧
    ((LocationAnalyzer.analyzeAt hav stations lat lon).has_metro_access = true
       ↔ (LocationAnalyzer.analyzeAt hav stations lat lon).distance_meters
           < ((1500 : ℚ) : WithTop ℚ)) := by
  simp only [LocationAnalyzer.analyzeAt]
  constructor
  · rw [decide_eq_true_eq, connectivityOf_ne_none_iff]
  · rw [decide_eq_true_eq]

theorem noMetroResult_invariant :
    (noMetroResult.has_metro_access = true
       ↔ noMetroResult.connectivity_level ≠ ConnectivityLevel.NONE) ∧
    (noMetroResult.has_metro_access = true
       ↔ noMetroResult.distance_meters < ((1500 : ℚ) : WithTop ℚ)) := by
  unfold noMetroResult
  simp

/-- Claim C10: every result of `LocationAnalyzer.analyze` — for every
distance function, coordinate table, station list and input — satisfies
`has_metro_access = (connectivity_level ≠ NONE) = (distance_meters < 1500)`;
and when the location is unresolvable (a coordinate missing, and the commune
name absent, empty, or not found in the table) the result is the
"no transit access" record: infinite distance, no nearby stations, no lines,
walking time 0. -/
theorem location_analyze_invariant (hav : ℚ → ℚ → ℚ → ℚ → ℚ)
    (table : List (String × (ℚ × ℚ))) (stations : List MetroStationData)
    (lat lon : Option ℚ) (comuna : Option String) :
    ((LocationAnalyzer.analyze hav table stations lat lon comuna).has_metro_access = true
       ↔ (LocationAnalyzer.analyze hav table stations lat lon comuna).connectivity_level
           ≠ ConnectivityLevel.NONE) ∧
    ((LocationAnalyzer.analyze hav table stations lat lon comuna).has_metro_access = true
       ↔ (LocationAnalyzer.analyze hav table stations lat lon comuna).distance_meters
           < ((1500 : ℚ) : WithTop ℚ)) ∧
    ((lat = none ∨ lon = none) →
      (∀ c, comuna = some c →
        c = "" ∨ LocationAnalyzer.get_coordinates_for_comuna table c = none) →
      LocationAnalyzer.analyze hav table stations lat lon comuna = noMetroResult) := by
  have hcom : ∀ comuna' : Option String,
      ((LocationAnalyzer.analyzeFromComuna hav table stations comuna').has_metro_access = true
        ↔ (LocationAnalyzer.analyzeFromComuna hav table stations comuna').connectivity_level
            ≠ ConnectivityLevel.NONE) ∧
      ((LocationAnalyzer.analyzeFromComuna hav table stations comuna').has_metro_access = true
        ↔ (LocationAnalyzer.analyzeFromComuna hav table stations comuna').distance_meters
            < ((1500 : ℚ) : WithTop ℚ)) ∧
      ((∀ c, comuna' = some c →
          c = "" ∨ LocationAnalyzer.get_coordinates_for_comuna table c = none) →
        LocationAnalyzer.analyzeFromComuna hav table stations comuna' = noMetroResult) := by
    intro comuna'
    rcases comuna' with _ | c
    · exact ⟨noMetroResult_invariant.1, noMetroResult_invariant.2, fun _ => rfl⟩
    · by_cases hc : c = ""
      · have he : LocationAnalyzer.analyzeFromComuna hav table stations (some c)
            = noMetroResult := by
          simp [LocationAnalyzer.analyzeFromComuna, hc]
        rw [he]
        exact ⟨noMetroResult_invariant.1, noMetroResult_invariant.2, fun _ => rfl⟩
      · cases hlk : LocationAnalyzer.get_coordinates_for_comuna table c with
        | some p =>
          have he : LocationAnalyzer.analyzeFromComuna hav table stations (some c)
              = LocationAnalyzer.analyzeAt hav stations p.1 p.2 := by
            simp [LocationAnalyzer.analyzeFromComuna, hc, hlk]
          rw [he]
          refine ⟨(analyzeAt_invariant hav stations p.1 p.2).1,
            (analyzeAt_invariant hav stations p.1 p.2).2, ?_⟩
          intro hall
          rcases hall c rfl with hceq | hnone
          · exact absurd hceq hc
          · rw [hlk] at hnone
            exact absurd hnone (by simp)
        | none =>
          have he : LocationAnalyzer.analyzeFromComuna hav table stations (some c)
              = noMetroResult := by
            simp [LocationAnalyzer.analyzeFromComuna, hc, hlk]
          rw [he]
          exact ⟨noMetroResult_invariant.1, noMetroResult_invariant.2, fun _ => rfl⟩
  rcases lat with _ | la <;> rcases lon with _ | lo
  · obtain ⟨h1, h2, h3⟩ := hcom comuna
    exact ⟨h1, h2, fun _ => h3⟩
  · obtain ⟨h1, h2, h3⟩ := hcom comuna
    exact ⟨h1, h2, fun _ => h3⟩
  · obtain ⟨h1, h2, h3⟩ := hcom comuna
    exact ⟨h1, h2, fun _ => h3⟩
  · refine ⟨(analyzeAt_invariant hav stations la lo).1,
      (analyzeAt_invariant hav stations la lo).2, fun habs _ => ?_⟩
    rcases habs with habs | habs <;> exact Option.noConfusion habs

/-- Instantiation of claim C10 at a concrete unresolvable input (no
coordinates, no commune) over an empty table and station list and the
constant-zero distance function. -/
theorem location_analyze_invariant_witness :
    ((LocationAnalyzer.analyze (fun _ _ _ _ => 0) [] [] none none none).has_metro_access = true
       ↔ (LocationAnalyzer.analyze (fun _ _ _ _ => 0) [] [] none none none).connectivity_level
           ≠ ConnectivityLevel.NONE) ∧
    ((LocationAnalyzer.analyze (fun _ _ _ _ => 0) [] [] none none none).has_metro_access = true
       ↔ (LocationAnalyzer.analyze (fun _ _ _ _ => 0) [] [] none none none).distance_meters
           < ((1500 : ℚ) : WithTop ℚ)) ∧
    LocationAnalyzer.analyze (fun _ _ _ _ => 0) [] [] none none none = noMetroResult := by
  obtain ⟨h1, h2, h3⟩ :=
    location_analyze_invariant (fun _ _ _ _ => 0) [] [] none none none
  exact ⟨h1, h2, h3 (Or.inl rfl) (fun c hc => by simp at hc)⟩

end ChileRealEstate
